import Mathlib

/-!
Verification of the keep-alive service in `src/api/keepalive.py`.

Shallow embedding notes:
* JSON values decoded by `json.loads` are modelled by the inductive `Json`.
* The module-level configuration load (lines 32-55 of the source) is
  `loadConfig`: it mirrors the `try` block — the `isinstance(list)` check,
  the emptiness check, and the per-element loop computing
  `required_fields - conf.keys()`.  The error raised is kept structured
  (`LoadError`); `LoadError.msg` renders the exact Python message text
  (for `missingFields`, the source joins a Python set, whose iteration
  order is unspecified; we render the names in declaration order of
  `required_fields`).  `conf.keys()` on a non-dict raises `AttributeError`,
  modelled by `LoadError.noKeysAttr`; it too is caught by the module-level
  `except Exception` and recorded in `startup_error`.
* The Supabase client is the opaque external collaborator: `PingEnv`
  supplies `create_client` and the single `select(*).limit(1).execute()`
  query, each of which may fail with an error text (a raised exception's
  `str(e)`).
* `_perform_ping` mirrors source lines 60-74, including the order of the
  dictionary accesses (`conf["name"]` for the log line first, then url and
  key, then `create_client`, then `conf["table_name"]`, then the query);
  any raised error is caught and becomes `(False, str(e))`.
* Each HTTP route is a pure function returning a `Resp`: the HTTP status
  code, the JSON body, and the list of targets actually passed to
  `_perform_ping` (in call order) so that "how many pings were invoked"
  is part of the model.  `HTTPException(status_code=404, detail=...)`
  raised by `_get_conf_by_index` / `_get_conf_by_name` is rendered the way
  FastAPI's default exception handler renders it: status 404 with body
  `{"detail": <detail>}` — the `Body.detail` constructor.  Bodies built
  with `JSONResponse(content={"status": ..., "message": ...})` are the
  `Body.statusMsg` constructor.
-/

/-- A decoded JSON value (the possible results of Python's `json.loads`). -/
inductive Json where
  | null
  | bool (b : Bool)
  | num (n : Int)
  | str (s : String)
  | arr (elems : List Json)
  | obj (fields : List (String × Json))

/-- Python type name of a decoded JSON value, as it appears in
`AttributeError` messages. -/
def Json.pyType : Json → String
  | .null => "NoneType"
  | .bool _ => "bool"
  | .num _ => "int"
  | .str _ => "str"
  | .arr _ => "list"
  | .obj _ => "dict"

/-- Key lookup in a decoded JSON object's field list.  Objects produced by
`json.loads` have unique keys (the decoder keeps the last duplicate), so a
first-match scan coincides with Python dict lookup on such values. -/
def lookupField : List (String × Json) → String → Option Json
  | [], _ => none
  | (k, v) :: rest, key => if k = key then some v else lookupField rest key

/-- `k in conf.keys()` for a decoded JSON value (`False` on non-dicts). -/
def Json.hasKey (c : Json) (k : String) : Bool :=
  match c with
  | .obj fs => (lookupField fs k).isSome
  | _ => false

/-- `isinstance(conf, dict)`: whether the decoded value is a JSON object. -/
def Json.isObj : Json → Bool
  | .obj _ => true
  | _ => false

/-- The source's `required_fields = {"name", "supabase_url", "supabase_key",
"table_name"}` (a set in Python; kept in declaration order here). -/
def requiredFields : List String :=
  ["name", "supabase_url", "supabase_key", "table_name"]

/-- `missing = required_fields - conf.keys()` (source line 43): the required
fields not among the element's own keys. -/
def missingOf (c : Json) : List String :=
  requiredFields.filter (fun k => !(c.hasKey k))

/-- The exceptions the module-level `try` block of the source can raise,
kept structured.  `noKeysAttr` is the `AttributeError` raised by
`conf.keys()` on a non-dict element. -/
inductive LoadError where
  | notArray
  | emptyArray
  | noKeysAttr (tyName : String)
  | missingFields (idx : Nat) (missing : List String)

/-- `str(e)` for each load-time exception, with the exact source texts.
For `missingFields` the source does `", ".join(missing)` over a Python set;
the set's members are exactly `missing`, rendered here in `requiredFields`
order. -/
def LoadError.msg : LoadError → String
  | .notArray => "SUPABASE_CONFIG 必须是 JSON 数组格式"
  | .emptyArray => "SUPABASE_CONFIG 不能为空数组"
  | .noKeysAttr ty => "\x27" ++ ty ++ "\x27 object has no attribute \x27keys\x27"
  | .missingFields i ms =>
      "配置 index=" ++ toString i ++ " 缺少字段: " ++ String.intercalate ", " ms

/-- The per-element validation loop of source lines 42-47, starting at
index `i`: the first element that is not a dict raises `AttributeError`
(from `conf.keys()`), the first dict with missing required fields raises
the `ValueError` naming its index and missing fields. -/
def checkFrom : Nat → List Json → Except LoadError Unit
  | _, [] => .ok ()
  | i, c :: rest =>
    if c.isObj then
      if missingOf c = [] then checkFrom (i + 1) rest
      else .error (.missingFields i (missingOf c))
    else .error (.noKeysAttr c.pyType)

/-- The module-level configuration load (source lines 32-50) applied to an
already-decoded JSON value: reject non-arrays and empty arrays, validate
every element in order, and on success keep the parsed list itself as the
config set (`config_list` is the decoded value, unchanged). -/
def loadConfig (j : Json) : Except LoadError (List Json) :=
  match j with
  | .arr xs =>
    if xs.length = 0 then .error .emptyArray
    else
      match checkFrom 0 xs with
      | .ok _ => .ok xs
      | .error e => .error e
  | _ => .error .notArray

/-- The opaque Supabase collaborator: `create_client(url, key)` may raise,
and the single `table(t).select("*").limit(1).execute()` query (determined
by the url, key and table it runs against) may raise; either failure is
reported as the exception's `str(e)`. -/
structure PingEnv where
  createClient : Json → Json → Except String Unit
  runQuery : Json → Json → Json → Except String Unit

/-- `conf[k]`: Python dict subscription.  A missing key raises `KeyError`,
whose `str` is the quoted key.  (Subscribing a non-dict raises `TypeError`;
unreachable for configs that passed startup validation.) -/
def Json.getItem (c : Json) (k : String) : Except String Json :=
  match c with
  | .obj fs =>
    match lookupField fs k with
    | some v => .ok v
    | none => .error ("\x27" ++ k ++ "\x27")
  | _ => .error "string indices must be integers"

/-- The body of `_perform_ping`'s `try` block (source lines 62-71), in
source order: `conf["name"]` (for the log line), `conf["supabase_url"]`,
`conf["supabase_key"]`, `create_client`, `conf["table_name"]`, then the
one lightweight query. -/
def pingSteps (env : PingEnv) (conf : Json) : Except String Unit :=
  match conf.getItem "name" with
  | .error e => .error e
  | .ok _ =>
    match conf.getItem "supabase_url" with
    | .error e => .error e
    | .ok url =>
      match conf.getItem "supabase_key" with
      | .error e => .error e
      | .ok key =>
        match env.createClient url key with
        | .error e => .error e
        | .ok _ =>
          match conf.getItem "table_name" with
          | .error e => .error e
          | .ok table => env.runQuery url key table

/-- `_perform_ping` (source lines 60-74): run the keep-alive query against
one config; every raised exception is caught and becomes
`(False, str(e))`, success is exactly `(True, "ok")`.  Total by
construction — no exception propagates to the caller. -/
def _perform_ping (env : PingEnv) (conf : Json) : Bool × String :=
  match pingSteps env conf with
  | .ok _ => (true, "ok")
  | .error e => (false, e)

/-- A JSON response body: either the handlers' explicit
`{"status": s, "message": m}` or FastAPI's default rendering
`{"detail": m}` of a raised `HTTPException`. -/
inductive Body where
  | statusMsg (status message : String)
  | detail (message : String)

/-- Whether the body carries a machine-readable `status` field. -/
def Body.hasStatusField : Body → Bool
  | .statusMsg _ _ => true
  | .detail _ => false

/-- An HTTP response of the service together with the list of configs that
were passed to `_perform_ping` while producing it (in call order). -/
structure Resp where
  code : Nat
  body : Body
  pinged : List Json

/-- The short-circuit response every route returns when `startup_error`
is set (source lines 103-105, 132-134, 152-154): status 500, body
`{"status": "error", "message": "Startup failed: <reason>"}`, and no
target contacted. -/
def startupResp (e : String) : Resp :=
  ⟨500, .statusMsg "error" ("Startup failed: " ++ e), []⟩

/-- The single-target response tail shared by the index and name routes
(source lines 137-145 and 157-165): one ping, status 200/500 by its
success flag, body `{"status": "success"|"error", "message": msg}` with
the ping's message verbatim. -/
def pingResp (env : PingEnv) (conf : Json) : Resp :=
  let r := _perform_ping env conf
  ⟨if r.fst then 200 else 500,
   .statusMsg (if r.fst then "success" else "error") r.snd,
   [conf]⟩

/-- `keepalive_all` (source lines 97-125): check `startup_error`, ping
every config in list order tallying successes, and map the tally to the
aggregate response.  `List.countP` is the loop's `success_count`. -/
def keepalive_all (env : PingEnv) (st : Option String) (cfg : List Json) : Resp :=
  match st with
  | some e => startupResp e
  | none =>
    let sc := cfg.countP (fun c => (_perform_ping env c).fst)
    if sc = cfg.length then ⟨200, .statusMsg "success" "ok", cfg⟩
    else if 0 < sc then ⟨500, .statusMsg "error" "partial_failure", cfg⟩
    else ⟨500, .statusMsg "error" "all_failure", cfg⟩

/-- `_get_conf_by_index` (source lines 77-81): `none` models the raised
404 `HTTPException` for `idx < 0 or idx >= len(config_list)`. -/
def _get_conf_by_index (cfg : List Json) (idx : Int) : Option Json :=
  if h : 0 ≤ idx ∧ idx.toNat < cfg.length then some (cfg.get ⟨idx.toNat, h.2⟩)
  else none

/-- `conf["name"] == name` as evaluated inside `_get_conf_by_name` for
configs that passed startup validation: a string value is compared for
string equality; a non-string value compares unequal to a `str` in Python.
(A dict without a `"name"` key would raise `KeyError`, but the scan only
runs when `startup_error` is unset, i.e. after every element was validated
to contain the key.) -/
def nameMatches (c : Json) (n : String) : Bool :=
  match c with
  | .obj fs =>
    match lookupField fs "name" with
    | some (.str s) => s = n
    | _ => false
  | _ => false

/-- `_get_conf_by_name` (source lines 84-89): linear scan returning the
first config whose `name` equals the requested string; `none` models the
raised 404 `HTTPException`. -/
def _get_conf_by_name (cfg : List Json) (n : String) : Option Json :=
  cfg.find? (fun c => nameMatches c n)

/-- `keepalive_by_index` (source lines 127-145), with FastAPI's default
rendering of the 404 `HTTPException` (body `{"detail": ...}`). -/
def keepalive_by_index (env : PingEnv) (st : Option String) (cfg : List Json)
    (idx : Int) : Resp :=
  match st with
  | some e => startupResp e
  | none =>
    match _get_conf_by_index cfg idx with
    | some conf => pingResp env conf
    | none => ⟨404, .detail ("index " ++ toString idx ++ " 不存在"), []⟩

/-- `keepalive_by_name` (source lines 148-165), with FastAPI's default
rendering of the 404 `HTTPException` (body `{"detail": ...}`). -/
def keepalive_by_name (env : PingEnv) (st : Option String) (cfg : List Json)
    (n : String) : Resp :=
  match st with
  | some e => startupResp e
  | none =>
    match _get_conf_by_name cfg n with
    | some conf => pingResp env conf
    | none => ⟨404, .detail ("name \x27" ++ n ++ "\x27 未找到对应配置"), []⟩

/-- A sample valid config element (the spec's own example). -/
def sampleConf : Json :=
  .obj [("name", .str "db1"), ("supabase_url", .str "u"),
        ("supabase_key", .str "k"), ("table_name", .str "t")]

/-- A second valid element sharing `sampleConf`'s name (for the
duplicate-name claims). -/
def sampleConf2 : Json :=
  .obj [("name", .str "db1"), ("supabase_url", .str "u2"),
        ("supabase_key", .str "k2"), ("table_name", .str "t2")]

/-- A collaborator for which every connection and query succeeds. -/
def envAllOk : PingEnv :=
  ⟨fun _ _ => .ok (), fun _ _ _ => .ok ()⟩

/-- A collaborator for which every connection attempt raises
"connection refused". -/
def envConnRefused : PingEnv :=
  ⟨fun _ _ => .error "connection refused", fun _ _ _ => .ok ()⟩

/-- C2: whenever `startup_error` is set, all three routes (`keepalive_all`,
`keepalive_by_index`, `keepalive_by_name`) return status 500 with body
`{"status": "error", "message": "Startup failed: <reason>"}` and invoke
zero pings, for any request input. -/
theorem startup_error_gates_all_routes (env : PingEnv) (cfg : List Json)
    (e : String) (idx : Int) (n : String) :
    keepalive_all env (some e) cfg =
      ⟨500, .statusMsg "error" ("Startup failed: " ++ e), []⟩ ∧
    keepalive_by_index env (some e) cfg idx =
      ⟨500, .statusMsg "error" ("Startup failed: " ++ e), []⟩ ∧
    keepalive_by_name env (some e) cfg n =
      ⟨500, .statusMsg "error" ("Startup failed: " ++ e), []⟩ :=
  ⟨rfl, rfl, rfl⟩

/-- C3: `_perform_ping` is total toward its caller (it is a function into
`Bool × String`, so no exception propagates); any error raised during
connection establishment or query execution is caught and becomes
`(false, <error text>)`, and when both steps succeed the result is exactly
`(true, "ok")`.  The hypotheses say the config carries the four fields any
validated `TargetConfig` has. -/
theorem perform_ping_total_outcomes (env : PingEnv) (conf : Json)
    (nv url key table : Json)
    (h1 : conf.getItem "name" = .ok nv)
    (h2 : conf.getItem "supabase_url" = .ok url)
    (h3 : conf.getItem "supabase_key" = .ok key)
    (h4 : conf.getItem "table_name" = .ok table) :
    (∀ e, env.createClient url key = .error e →
      _perform_ping env conf = (false, e)) ∧
    (∀ e, env.createClient url key = .ok () →
      env.runQuery url key table = .error e →
      _perform_ping env conf = (false, e)) ∧
    (env.createClient url key = .ok () → env.runQuery url key table = .ok () →
      _perform_ping env conf = (true, "ok")) := by
  refine ⟨fun e hc => ?_, fun e hc hq => ?_, fun hc hq => ?_⟩
  · simp [_perform_ping, pingSteps, h1, h2, h3, h4, hc]
  · simp [_perform_ping, pingSteps, h1, h2, h3, h4, hc, hq]
  · simp [_perform_ping, pingSteps, h1, h2, h3, h4, hc, hq]

/-- Witness for C3 at the spec's example config with an all-ok collaborator. -/
theorem perform_ping_total_outcomes_witness :
    _perform_ping envAllOk sampleConf = (true, "ok") :=
  (perform_ping_total_outcomes envAllOk sampleConf
    (.str "db1") (.str "u") (.str "k") (.str "t") rfl rfl rfl rfl).2.2 rfl rfl

/-- C7: a ping-by-index request resolving to a config and a ping-by-name
request matching a config each invoke exactly one ping (the `pinged` list
is the singleton of the resolved target) and echo that ping outcome's
message verbatim, with status 200/"success" on success and 500/"error" on
failure. -/
theorem single_target_routes_echo (env : PingEnv) (cfg : List Json)
    (conf cN : Json) (idx : Int) (n : String)
    (hi : _get_conf_by_index cfg idx = some conf)
    (hn : _get_conf_by_name cfg n = some cN) :
    keepalive_by_index env none cfg idx =
      ⟨if (_perform_ping env conf).fst then 200 else 500,
       .statusMsg (if (_perform_ping env conf).fst then "success" else "error")
         (_perform_ping env conf).snd, [conf]⟩ ∧
    keepalive_by_name env none cfg n =
      ⟨if (_perform_ping env cN).fst then 200 else 500,
       .statusMsg (if (_perform_ping env cN).fst then "success" else "error")
         (_perform_ping env cN).snd, [cN]⟩ := by
  constructor
  · simp [keepalive_by_index, hi, pingResp]
  · simp [keepalive_by_name, hn, pingResp]

/-- Witness for C7: index 0 of a one-element config set with an all-ok
collaborator. -/
theorem single_target_routes_echo_witness :
    keepalive_by_index envAllOk none [sampleConf] 0 =
      ⟨if (_perform_ping envAllOk sampleConf).fst then 200 else 500,
       .statusMsg
         (if (_perform_ping envAllOk sampleConf).fst then "success" else "error")
         (_perform_ping envAllOk sampleConf).snd, [sampleConf]⟩ :=
  (single_target_routes_echo envAllOk [sampleConf] sampleConf sampleConf
    0 "db1" rfl rfl).1

/-- C1: ping-all over a config set handled by the route (nonempty, as every
set produced by a successful load is), with `S` the number of per-target
pings that succeed: `S = N` gives 200 `{"status":"success","message":"ok"}`,
`S = 0` gives 500 with message `"all_failure"`, and `0 < S < N` gives 500
with message `"partial_failure"`; every target is pinged in list order. -/
theorem keepalive_all_aggregation (env : PingEnv) (cfg : List Json) (S : Nat)
    (hS : S = cfg.countP (fun c => (_perform_ping env c).fst))
    (hne : cfg ≠ []) :
    (S = cfg.length →
      keepalive_all env none cfg = ⟨200, .statusMsg "success" "ok", cfg⟩) ∧
    (S = 0 →
      keepalive_all env none cfg = ⟨500, .statusMsg "error" "all_failure", cfg⟩) ∧
    (0 < S → S < cfg.length →
      keepalive_all env none cfg =
        ⟨500, .statusMsg "error" "partial_failure", cfg⟩) := by
  subst hS
  refine ⟨fun h => ?_, fun h => ?_, fun h1 h2 => ?_⟩
  · simp [keepalive_all, h]
  · have hlen : ¬ ((0 : Nat) = cfg.length) :=
      fun hl => hne (List.length_eq_zero.mp hl.symm)
    simp [keepalive_all, h, hlen]
  · have hne2 : ¬ (cfg.countP (fun c => (_perform_ping env c).fst) = cfg.length) :=
      Nat.ne_of_lt h2
    simp [keepalive_all, hne2, h1]

/-- Witness for C1: one target, all pings succeeding, gives the 200 body. -/
theorem keepalive_all_aggregation_witness :
    keepalive_all envAllOk none [sampleConf] =
      ⟨200, .statusMsg "success" "ok", [sampleConf]⟩ :=
  (keepalive_all_aggregation envAllOk [sampleConf] 1 (by decide)
    (by simp)).1 (by decide)

/-- C4 (amended): ping-by-index with `idx` outside `[0, N)` and
ping-by-name with an unmatched name each return status 404 with zero ping
invocations and a human-readable message; the body is FastAPI's default
`HTTPException` rendering `{"detail": <message>}`, which carries no
machine-readable `status` field. -/
theorem not_found_routes (env : PingEnv) (cfg : List Json) (idx : Int)
    (n : String)
    (hidx : idx < 0 ∨ (cfg.length : Int) ≤ idx)
    (hn : _get_conf_by_name cfg n = none) :
    keepalive_by_index env none cfg idx =
      ⟨404, .detail ("index " ++ toString idx ++ " 不存在"), []⟩ ∧
    keepalive_by_name env none cfg n =
      ⟨404, .detail ("name \x27" ++ n ++ "\x27 未找到对应配置"), []⟩ ∧
    (keepalive_by_index env none cfg idx).body.hasStatusField = false ∧
    (keepalive_by_name env none cfg n).body.hasStatusField = false := by
  have hnone : _get_conf_by_index cfg idx = none := by
    rw [_get_conf_by_index, dif_neg]
    rintro ⟨hge, hlt⟩
    rcases hidx with h | h
    · exact absurd hge (not_le.mpr h)
    · have hle : cfg.length ≤ idx.toNat := by
        have := Int.toNat_le_toNat h
        simpa using this
      exact absurd hlt (not_lt.mpr hle)
  refine ⟨?_, ?_, ?_, ?_⟩ <;>
    simp [keepalive_by_index, keepalive_by_name, hnone, hn, Body.hasStatusField]

/-- Witness for C4's amended statement: index 1 of a one-element config. -/
theorem not_found_routes_witness :
    keepalive_by_index envAllOk none [sampleConf] 1 =
      ⟨404, .detail ("index " ++ toString (1 : Int) ++ " 不存在"), []⟩ :=
  (not_found_routes envAllOk [sampleConf] 1 "nope"
    (Or.inr (by decide)) rfl).1

/-- C4 as stated: the not-found responses carry a machine-readable
`status` field in the body. -/
def ClaimC4 : Prop :=
  ∀ (env : PingEnv) (cfg : List Json) (idx : Int) (n : String),
    (idx < 0 ∨ (cfg.length : Int) ≤ idx) →
    _get_conf_by_name cfg n = none →
    ((keepalive_by_index env none cfg idx).code = 404 ∧
     (keepalive_by_index env none cfg idx).pinged = [] ∧
     (keepalive_by_index env none cfg idx).body.hasStatusField = true) ∧
    ((keepalive_by_name env none cfg n).code = 404 ∧
     (keepalive_by_name env none cfg n).pinged = [] ∧
     (keepalive_by_name env none cfg n).body.hasStatusField = true)

/-- C4 counterexample: at index 1 of a one-element config set the 404 body
is `{"detail": "index 1 不存在"}` — FastAPI's `HTTPException` rendering —
which has no `status` field. -/
theorem claimC4_false : ¬ ClaimC4 := by
  intro h
  have h2 := h envAllOk [sampleConf] 1 "nope" (Or.inr (by decide)) rfl
  exact absurd h2.1.2.2 (by decide)

/-- The validation loop skips a prefix of valid elements, advancing the
reported index by the prefix length. -/
theorem checkFrom_append_valid : ∀ (pre l : List Json) (i : Nat),
    (∀ c ∈ pre, c.isObj = true ∧ missingOf c = []) →
    checkFrom i (pre ++ l) = checkFrom (i + pre.length) l := by
  intro pre
  induction pre with
  | nil => intro l i _; simp
  | cons p ps ih =>
    intro l i hpre
    have hp := hpre p (List.mem_cons_self _ _)
    have hstep : checkFrom i ((p :: ps) ++ l) = checkFrom (i + 1) (ps ++ l) := by
      simp [checkFrom, hp.1, hp.2]
    rw [hstep, ih l (i + 1) (fun c hc => hpre c (List.mem_cons_of_mem _ hc))]
    congr 1
    simp [List.length_cons]
    omega

/-- The validation loop accepts a list of valid elements. -/
theorem checkFrom_ok_of_valid : ∀ (xs : List Json) (i : Nat),
    (∀ c ∈ xs, c.isObj = true ∧ missingOf c = []) → checkFrom i xs = .ok () := by
  intro xs
  induction xs with
  | nil => intro i _; rfl
  | cons c rest ih =>
    intro i hall
    have hc := hall c (List.mem_cons_self _ _)
    simp [checkFrom, hc.1, hc.2,
      ih (i + 1) (fun x hx => hall x (List.mem_cons_of_mem _ hx))]

/-- If the validation loop accepts a list, every element is a dict with no
missing required field. -/
theorem valid_of_checkFrom_ok : ∀ (xs : List Json) (i : Nat),
    checkFrom i xs = .ok () → ∀ c ∈ xs, c.isObj = true ∧ missingOf c = [] := by
  intro xs
  induction xs with
  | nil => intro i _ c hc; cases hc
  | cons x rest ih =>
    intro i hok c hc
    by_cases hobj : x.isObj = true
    · by_cases hmiss : missingOf x = []
      · have hok2 : checkFrom (i + 1) rest = .ok () := by
          simpa [checkFrom, hobj, hmiss] using hok
        rcases List.mem_cons.mp hc with rfl | hmem
        · exact ⟨hobj, hmiss⟩
        · exact ih (i + 1) hok2 c hmem
      · exact absurd hok (by simp [checkFrom, hobj, hmiss])
    · exact absurd hok (by simp [checkFrom, hobj])

/-- A member that is not a dict, or misses a required field, makes the
validation loop fail with some error. -/
theorem checkFrom_error_of_bad : ∀ (xs : List Json) (i : Nat) (c : Json),
    c ∈ xs → (c.isObj = false ∨ missingOf c ≠ []) →
    ∃ e, checkFrom i xs = .error e := by
  intro xs
  induction xs with
  | nil => intro i c hc; cases hc
  | cons x rest ih =>
    intro i c hc hbad
    by_cases hobj : x.isObj = true
    · by_cases hmiss : missingOf x = []
      · rcases List.mem_cons.mp hc with rfl | hmem
        · rcases hbad with hb | hb
          · simp [hobj] at hb
          · exact absurd hmiss hb
        · obtain ⟨e, he⟩ := ih (i + 1) c hmem hbad
          exact ⟨e, by simp [checkFrom, hobj, hmiss, he]⟩
      · exact ⟨.missingFields i (missingOf x), by simp [checkFrom, hobj, hmiss]⟩
    · exact ⟨.noKeysAttr x.pyType, by simp [checkFrom, hobj]⟩

/-- An element with no missing required field has every required key. -/
theorem hasKey_of_missing_nil (c : Json) (h : missingOf c = []) :
    ∀ k ∈ requiredFields, c.hasKey k = true := by
  intro k hk
  by_contra hcon
  have hkf : c.hasKey k = false := by
    cases hbk : c.hasKey k
    · rfl
    · exact absurd hbk hcon
  have hmem : k ∈ missingOf c := List.mem_filter.mpr ⟨hk, by simp [hkf]⟩
  rw [h] at hmem
  cases hmem

/-- C5 (amended): when the first invalid element of the configuration list
is the dict at index `pre.length` (everything before it valid) and it
misses required fields, the load fails with the `ValueError` that names
exactly that index and exactly the missing field names — rendered
verbatim into the message text.  Later invalid elements are not reported,
because validation stops at the first failure. -/
theorem load_reports_first_missing (pre rest : List Json) (bad : Json)
    (hpre : ∀ c ∈ pre, c.isObj = true ∧ missingOf c = [])
    (hobj : bad.isObj = true)
    (hmiss : missingOf bad ≠ []) :
    loadConfig (.arr (pre ++ bad :: rest)) =
      .error (.missingFields pre.length (missingOf bad)) ∧
    LoadError.msg (.missingFields pre.length (missingOf bad)) =
      "配置 index=" ++ toString pre.length ++ " 缺少字段: " ++
        String.intercalate ", " (missingOf bad) := by
  constructor
  · have hlen : (pre ++ bad :: rest).length ≠ 0 := by simp
    have hchk : checkFrom 0 (pre ++ bad :: rest) =
        .error (.missingFields pre.length (missingOf bad)) := by
      rw [checkFrom_append_valid pre (bad :: rest) 0 hpre]
      simp [checkFrom, hobj, hmiss]
    simp [loadConfig, hlen, hchk]
  · rfl

/-- Witness for C5's amended statement: a valid element followed by one
missing three fields. -/
theorem load_reports_first_missing_witness :
    loadConfig (.arr [sampleConf, Json.obj [("name", Json.str "x")]]) =
      .error (.missingFields 1 (missingOf (Json.obj [("name", Json.str "x")]))) :=
  (load_reports_first_missing [sampleConf] [] (Json.obj [("name", Json.str "x")])
    (by decide) rfl (by decide)).1

/-- C5 as stated: for every index `i` whose element misses required
fields, the recorded error names that `i`. -/
def ClaimC5 : Prop :=
  ∀ (xs : List Json) (i : Nat) (h : i < xs.length),
    (xs.get ⟨i, h⟩).isObj = true →
    missingOf (xs.get ⟨i, h⟩) ≠ [] →
    loadConfig (.arr xs) = .error (.missingFields i (missingOf (xs.get ⟨i, h⟩)))

/-- C5 counterexample: with two empty dicts, index 1 also misses every
required field, but validation stops at index 0, so the recorded error
names index 0, not 1. -/
theorem claimC5_false : ¬ ClaimC5 := by
  intro h
  have h2 := h [Json.obj [], Json.obj []] 1 (by decide) rfl (by decide)
  have h3 : loadConfig (.arr [Json.obj [], Json.obj []]) =
      .error (.missingFields 0 (missingOf (Json.obj []))) := rfl
  rw [h3] at h2
  simp at h2

/-- Whether key `k` of the element holds a non-empty string. -/
def nonEmptyStrVal (c : Json) (k : String) : Bool :=
  match c with
  | .obj fs =>
    match lookupField fs k with
    | some (.str s) => s ≠ ""
    | _ => false
  | _ => false

/-- C6 (amended): every element of a config set produced by a successful
load is the corresponding input element and has all four required fields
present, and the absence of any required field in any element makes
startup validation fail; the values are NOT checked for non-emptiness
(empty strings pass validation). -/
theorem load_keeps_fields_present (xs ys : List Json) :
    (loadConfig (.arr xs) = .ok ys →
      ys = xs ∧ ∀ c ∈ ys, ∀ k ∈ requiredFields, c.hasKey k = true) ∧
    ((∃ c ∈ xs, ∃ k ∈ requiredFields, c.hasKey k = false) →
      ∃ e, loadConfig (.arr xs) = .error e) := by
  constructor
  · intro hok
    by_cases hlen : xs.length = 0
    · simp [loadConfig, hlen] at hok
    · rcases hchk : checkFrom 0 xs with e | u
      · exact absurd hok (by simp [loadConfig, hlen, hchk])
      · cases u
        have h4 : loadConfig (.arr xs) = .ok xs := by
          simp [loadConfig, hlen, hchk]
        rw [h4] at hok
        have hys : ys = xs := (Except.ok.inj hok).symm
        subst hys
        refine ⟨rfl, fun c hc k hk => ?_⟩
        exact hasKey_of_missing_nil c
          ((valid_of_checkFrom_ok ys 0 hchk c hc).2) k hk
  · rintro ⟨c, hcmem, k, hkmem, hkey⟩
    have hbad : c.isObj = false ∨ missingOf c ≠ [] := by
      cases hobj : c.isObj
      · exact Or.inl rfl
      · right
        intro hnil
        have := hasKey_of_missing_nil c hnil k hkmem
        rw [this] at hkey
        cases hkey
    obtain ⟨e, he⟩ := checkFrom_error_of_bad xs 0 c hcmem hbad
    have hlen : xs.length ≠ 0 := by
      intro h0
      rw [List.length_eq_zero] at h0
      subst h0
      cases hcmem
    exact ⟨e, by simp [loadConfig, hlen, he]⟩

/-- Witness for C6's amended statement at the spec's example config. -/
theorem load_keeps_fields_present_witness :
    [sampleConf] = [sampleConf] ∧
    ∀ c ∈ [sampleConf], ∀ k ∈ requiredFields, c.hasKey k = true :=
  (load_keeps_fields_present [sampleConf] [sampleConf]).1 rfl

/-- C6 as stated: every loaded element has all four required fields
present AND holding non-empty values. -/
def ClaimC6 : Prop :=
  ∀ (xs ys : List Json), loadConfig (.arr xs) = .ok ys →
    ∀ c ∈ ys, ∀ k ∈ requiredFields,
      c.hasKey k = true ∧ nonEmptyStrVal c k = true

/-- An element whose four required fields are all the empty string. -/
def emptyValConf : Json :=
  .obj [("name", .str ""), ("supabase_url", .str ""),
        ("supabase_key", .str ""), ("table_name", .str "")]

/-- C6 counterexample: a config whose four required fields are all empty
strings passes startup validation, so loaded elements need not have
non-empty field values. -/
theorem claimC6_false : ¬ ClaimC6 := by
  intro h
  have h2 := h [emptyValConf] [emptyValConf] rfl emptyValConf
    (List.mem_singleton.mpr rfl) "name" (by decide)
  exact absurd h2.2 (by decide)

/-- C8: a nonempty configuration list whose elements are all dicts with
every required field loads successfully, and the resulting config set is
the input list itself — hence of the same length and in the same order. -/
theorem load_preserves_valid_list (xs : List Json) (hne : xs ≠ [])
    (hall : ∀ c ∈ xs, c.isObj = true ∧ missingOf c = []) :
    loadConfig (.arr xs) = .ok xs := by
  have hlen : xs.length ≠ 0 := fun h0 => hne (List.length_eq_zero.mp h0)
  simp [loadConfig, hlen, checkFrom_ok_of_valid xs 0 hall]

/-- Witness for C8: a two-element valid configuration. -/
theorem load_preserves_valid_list_witness :
    loadConfig (.arr [sampleConf, sampleConf2]) = .ok [sampleConf, sampleConf2] :=
  load_preserves_valid_list [sampleConf, sampleConf2] (by simp) (by decide)

/-- A linear scan returns the first satisfying element of the list. -/
theorem find_first_of_append {α : Type} (p : α → Bool) :
    ∀ (l₁ : List α) (c : α) (l₂ : List α),
    (∀ x ∈ l₁, p x = false) → p c = true →
    (l₁ ++ c :: l₂).find? p = some c := by
  intro l₁
  induction l₁ with
  | nil => intro c l₂ _ hc; exact List.find?_cons_of_pos _ hc
  | cons a l ih =>
    intro c l₂ hnone hc
    have ha := hnone a (List.mem_cons_self _ _)
    rw [List.cons_append, List.find?_cons_of_neg _ (by simp [ha]),
      ih c l₂ (fun x hx => hnone x (List.mem_cons_of_mem _ hx)) hc]

/-- C9: with duplicate names in the config set (the first match at
position `l₁.length`, another match somewhere after it), ping-by-name
resolves by linear scan on string equality of `name` to the FIRST match
and pings only that target. -/
theorem by_name_first_match_wins (env : PingEnv) (l₁ l₂ : List Json)
    (c c2 : Json) (n : String)
    (hnone : ∀ x ∈ l₁, nameMatches x n = false)
    (hc : nameMatches c n = true)
    (hc2 : c2 ∈ l₂) (hc2n : nameMatches c2 n = true) :
    _get_conf_by_name (l₁ ++ c :: l₂) n = some c ∧
    keepalive_by_name env none (l₁ ++ c :: l₂) n = pingResp env c ∧
    (keepalive_by_name env none (l₁ ++ c :: l₂) n).pinged = [c] := by
  have hfind : _get_conf_by_name (l₁ ++ c :: l₂) n = some c :=
    find_first_of_append _ l₁ c l₂ hnone hc
  refine ⟨hfind, ?_, ?_⟩ <;> simp [keepalive_by_name, hfind, pingResp]

/-- Witness for C9: two configs named "db1"; the scan returns the first. -/
theorem by_name_first_match_wins_witness :
    _get_conf_by_name ([] ++ sampleConf :: [sampleConf2]) "db1" = some sampleConf :=
  (by_name_first_match_wins envAllOk [] [sampleConf2] sampleConf sampleConf2
    "db1" (by intro x hx; cases hx) rfl (List.mem_singleton.mpr rfl) rfl).1

/-- C10: a decoded configuration array containing a non-dict element never
crashes the process: the per-element validation raises (`conf.keys()` on
the non-dict, or an earlier element's `ValueError`), the module-level
`except` records it as the startup error, and with that startup error set
every subsequent request gets the startup-failure response. -/
theorem load_handles_non_object_elements (env : PingEnv) (cfg2 : List Json)
    (xs : List Json) (idx : Int) (n : String) (c : Json)
    (hc : c ∈ xs) (hobj : c.isObj = false) :
    (∃ e, loadConfig (.arr xs) = .error e) ∧
    (∀ e : LoadError, loadConfig (.arr xs) = .error e →
      keepalive_all env (some e.msg) cfg2 = startupResp e.msg ∧
      keepalive_by_index env (some e.msg) cfg2 idx = startupResp e.msg ∧
      keepalive_by_name env (some e.msg) cfg2 n = startupResp e.msg) := by
  constructor
  · obtain ⟨e, he⟩ := checkFrom_error_of_bad xs 0 c hc (Or.inl hobj)
    have hlen : xs.length ≠ 0 := by
      intro h0
      rw [List.length_eq_zero] at h0
      subst h0
      cases hc
    exact ⟨e, by simp [loadConfig, hlen, he]⟩
  · intro e _
    exact ⟨rfl, rfl, rfl⟩

/-- Witness for C10: an array containing a bare string. -/
theorem load_handles_non_object_elements_witness :
    ∃ e, loadConfig (.arr [Json.str "x"]) = .error e :=
  (load_handles_non_object_elements envAllOk [] [Json.str "x"] 0 "n"
    (Json.str "x") (List.mem_singleton.mpr rfl) rfl).1
